import Mathlib

/-!
Shallow embedding of the Provisioning Orchestration Subsystem of
`pytest_fixtures/component/provision_pxe.py` (robottelo).

The fixtures are straight-line orchestration code against remote systems
(Satellite API, broker).  We embed them as pure functions over explicit
environments: every remote call's answer (repository ids, task results,
operating-system search results, ...) is a field of an environment record,
and the externally visible actions the fixture performs are collected in an
event trace.  Machine strings stay `String`, ids and tasks are `Nat`
(`0` models Python's falsy empty-string id `rh_repo_id = ""`), and
failures (Python `assert` / `IndexError` / `ValueError`) become `Except`
errors.
-/

/- ---------------------------------------------------------------------
   IPv4 arithmetic, embedding the use of `ipaddress.ip_interface` in
   `module_provisioning_sat` (provision_pxe.py lines 158-159, 181-182).
   An address is a `Nat < 2^32`; parsing follows `ipaddress`: four
   dot-separated decimal octets `0..255` without leading zeros, an
   optional `/prefix` with prefix `0..32` (missing prefix means `/32`).
   --------------------------------------------------------------------- -/

/-- Split a character list at every occurrence of `sep` (the pieces of
`"a.b.c.d".split('.')`). -/
def splitOnChar (sep : Char) : List Char → List (List Char)
  | [] => [[]]
  | c :: rest =>
    let r := splitOnChar sep rest
    if c = sep then [] :: r
    else
      match r with
      | [] => [[c]]
      | g :: gs => (c :: g) :: gs

def digitVal (c : Char) : Option Nat :=
  if c.isDigit then some (c.toNat - 48) else none

def parseDigitsAux : List Char → Nat → Option Nat
  | [], acc => some acc
  | c :: rest, acc =>
    match digitVal c with
    | none => none
    | some d => parseDigitsAux rest (acc * 10 + d)

/-- A nonempty all-digit run as a number. -/
def parseDigits : List Char → Option Nat
  | [] => none
  | c :: rest => parseDigitsAux (c :: rest) 0

/-- One decimal octet `0..255`, digits only, no leading zero
(as `ipaddress` accepts). -/
def parseOctet (cs : List Char) : Option Nat :=
  match parseDigits cs with
  | none => none
  | some n =>
    if n ≤ 255 ∧ (cs.length = 1 ∨ cs.headI ≠ '0') then some n else none

/-- Parse a dotted-quad IPv4 address into its 32-bit numeric value. -/
def parseIpv4 (cs : List Char) : Option Nat :=
  match (splitOnChar '.' cs).map parseOctet with
  | [some a, some b, some c, some d] =>
    some (a * 16777216 + b * 65536 + c * 256 + d)
  | _ => none

/-- Embeds `ipaddress.ip_interface`: address plus prefix length.
A bare address gets prefix 32, as in Python. -/
def ipInterface (s : String) : Option (Nat × Nat) :=
  match splitOnChar '/' s.toList with
  | [addr] =>
    match parseIpv4 addr with
    | some a => some (a, 32)
    | none => none
  | [addr, pre] =>
    match parseIpv4 addr, parseDigits pre with
    | some a, some p => if p ≤ 32 then some (a, p) else none
    | _, _ => none
  | _ => none

/-- `network.network_address` of an interface: clear the host bits. -/
def networkAddress (addr p : Nat) : Nat :=
  addr - addr % 2 ^ (32 - p)

/-- `network.netmask` of a prefix length, as a 32-bit value. -/
def netmaskOf (p : Nat) : Nat :=
  2 ^ 32 - 2 ^ (32 - p)

/-- Render a 32-bit value back to a dotted quad, as Python's
`str(network_address)` / `str(netmask)` do. -/
def toDotted (n : Nat) : String :=
  toString (n / 16777216 % 256) ++ "." ++ toString (n / 65536 % 256) ++ "."
    ++ toString (n / 256 % 256) ++ "." ++ toString (n % 256)

/-- `ip`, given as a string, lies in the network derived from interface
address `addr` with prefix `p`.  This predicate restates the spec's words
"DHCP range lies within the derived network" so it can be compared with
what `module_provisioning_sat` actually does; the fixture itself never
computes it. -/
def ipInNetworkB (ip : String) (addr p : Nat) : Bool :=
  match parseIpv4 ip.toList with
  | none => false
  | some v => networkAddress v p == networkAddress addr p

/- ---------------------------------------------------------------------
   NetworkProvisioner: `module_provisioning_sat`
   (provision_pxe.py lines 130-200).
   --------------------------------------------------------------------- -/

/-- The `data_out` box the broker workflow returns (the fields the fixture
reads at lines 158-185). -/
structure BrokerDataOut where
  provisioning_addr_ipv4 : String
  provisioning_gw_ipv4 : String
  provisioning_host_range_start : String
  provisioning_host_range_end : String
  provisioning_upstream_dns : List String
  deriving Repr, DecidableEq

/-- The Subnet entity created at lines 178-198; fields that merely point
every boot service at `module_provisioning_capsule.id` are dropped, the
computed and copied fields are kept.  `to_` stands for the Python keyword
argument `to`. -/
structure Subnet where
  network : String
  mask : String
  gateway : String
  from_ : String
  to_ : String
  dns_primary : String
  dns_secondary : Option String
  deriving Repr, DecidableEq

inductive NetError
  /-- `ipaddress.ip_interface` raised `ValueError` on the broker string. -/
  | InvalidNetworkDescriptor
  /-- `provisioning_upstream_dns.pop()` raised `IndexError`: the broker
  supplied no upstream DNS address at all. -/
  | NoUpstreamDns
  deriving Repr, DecidableEq

/-- Lines 162-169: `primary = lst.pop()`, then
`secondary = lst.pop() if len(lst) else None`.  Returns
`(primary, secondary, what is left of the list)`; `none` when the first
`pop` has nothing to remove. -/
def popDns (l : List String) : Option (String × Option String × List String) :=
  match l.getLast? with
  | none => none
  | some prim =>
    let rest := l.dropLast
    match rest.getLast? with
    | none => some (prim, none, rest)
    | some sec => some (prim, some sec, rest.dropLast)

/-- The subnet-building core of `module_provisioning_sat`: parse the
interface descriptor, pop one or two upstream DNS addresses, create the
Subnet.  The Domain creation (lines 171-176) precedes the Subnet and has
no computed content, so only the Subnet is returned. -/
def moduleProvisioningSat (out : BrokerDataOut) : Except NetError Subnet :=
  match ipInterface out.provisioning_addr_ipv4 with
  | none => .error .InvalidNetworkDescriptor
  | some (addr, p) =>
    match popDns out.provisioning_upstream_dns with
    | none => .error .NoUpstreamDns
    | some (prim, sec, _) =>
      .ok
        { network := toDotted (networkAddress addr p)
          mask := toDotted (netmaskOf p)
          gateway := out.provisioning_gw_ipv4
          from_ := out.provisioning_host_range_start
          to_ := out.provisioning_host_range_end
          dns_primary := prim
          dns_secondary := sec }

/- ---------------------------------------------------------------------
   ContentPipeline: `module_provisioning_rhel_content`
   (provision_pxe.py lines 25-127).
   `rhel_ver` is modelled as the integer value of the requested RHEL
   major version (the fixture applies `int(...)` where it compares).
   --------------------------------------------------------------------- -/

/-- Lines 38-43: the vendor repository names for a RHEL version. -/
def repoNames (rhelVer : Nat) : List String :=
  if rhelVer ≤ 7 then ["rhel" ++ toString rhelVer]
  else ["rhel" ++ toString rhelVer ++ "_bos", "rhel" ++ toString rhelVer ++ "_aps"]

/-- Lines 99-103: the `constants.REPOS['kickstart']` entry whose `version`
field is parsed into `rhel_xy`.  The code tests `rhel_ver == 7` (exact
equality), not `<= 7`. -/
def ksVersionSelector (rhelVer : Nat) : String :=
  if rhelVer = 7 then "rhel" ++ toString rhelVer
  else "rhel" ++ toString rhelVer ++ "_bos"

/-- Answers of the remote systems consumed by
`module_provisioning_rhel_content`.  Repository and task ids are `Nat`;
id `0` stands for a falsy (empty-string) id, as in the fixture's
`rh_repo_id = ""` initialisation and `if repo_id:` guard. -/
structure ContentEnv where
  /-- `enable_rhrepo_and_fetchid` for `constants.REPOS['kickstart'][name]`. -/
  ksRepoId : String → Nat
  /-- `enable_rhrepo_and_fetchid` for the content repo `constants.REPOS[name]`. -/
  contentRepoId : String → Nat
  /-- the task returned by `client_repo.sync(synchronous=False)` (line 59). -/
  clientTaskId : Nat
  /-- the task returned by syncing the repository with a given id (line 87). -/
  syncTaskId : Nat → Nat
  /-- `ForemanTask(id=task).poll()['result']` after `wait_for_tasks` (line 97). -/
  taskResult : Nat → String
  /-- major of `Version(constants.REPOS['kickstart'][entry]['version'])`. -/
  ksMajor : String → Nat
  /-- minor of the same version string. -/
  ksMinor : String → Nat
  /-- `OperatingSystem().search` result ids for a major/minor query (line 104). -/
  osSearch : Nat → Nat → List Nat
  /-- result of the content-view publish task (line 117). -/
  publishResult : String
  /-- id of the content view re-fetched by name after publish (line 118). -/
  cvRefetchId : Nat
  /-- id of the created activation key (line 121). -/
  akId : Nat

/-- Externally visible actions of the fixture, in program order. -/
inductive Event
  | createCV
  | createClientRepo
  | syncClient (taskId : Nat)
  | enableKickstart (name : String)
  | enableContent (name : String)
  | syncRepo (repoId taskId : Nat)
  | waitTask (taskId : Nat)
  | publishCV
  | createAK
  deriving Repr, DecidableEq

/-- The mutable locals of the lines 63-91 loop: `rh_repo_id` (NOT reset
between iterations), `tasks`, `rh_repos`, plus the event trace. -/
structure SyncState where
  rhRepoId : Nat
  tasks : List Nat
  rhRepos : List Nat
  events : List Event
  deriving Repr, DecidableEq

/-- Lines 84-91: `for repo_id in [ks, rh]: if repo_id: read, sync, append`. -/
def syncRepoIfPresent (env : ContentEnv) (st : SyncState) (repoId : Nat) : SyncState :=
  if repoId ≠ 0 then
    { st with
      tasks := st.tasks ++ [env.syncTaskId repoId]
      rhRepos := st.rhRepos ++ [repoId]
      events := st.events ++ [.syncRepo repoId (env.syncTaskId repoId)] }
  else st

/-- One iteration of the lines 63-91 loop for one vendor repo `name`:
enable the kickstart repo, enable the content repo unless the
provisioning type is discovery, then sync whichever of the two ids is
truthy. -/
def processName (env : ContentEnv) (ptype : String) (st : SyncState)
    (name : String) : SyncState :=
  let st1 := { st with events := st.events ++ [.enableKickstart name] }
  let st2 :=
    if ptype ≠ "discovery" then
      { st1 with
        rhRepoId := env.contentRepoId name
        events := st1.events ++ [.enableContent name] }
    else st1
  syncRepoIfPresent env (syncRepoIfPresent env st2 (env.ksRepoId name)) st2.rhRepoId

/-- Lines 44-62 before the loop: `rh_repo_id = ""`, the client repo is
created and its async sync task queued, the new content view recorded. -/
def initSyncState (env : ContentEnv) : SyncState :=
  { rhRepoId := 0
    tasks := [env.clientTaskId]
    rhRepos := []
    events := [.createCV, .createClientRepo, .syncClient env.clientTaskId] }

/-- Lines 38-91: the whole repository-enabling and sync-queueing phase. -/
def syncPhase (env : ContentEnv) (rhelVer : Nat) (ptype : String) : SyncState :=
  (repoNames rhelVer).foldl (processName env ptype) (initSyncState env)

/-- Lines 92-98: wait for each queued task in order and poll its result;
`assert result == 'success'` aborts at the first task whose terminal
result is not success.  Returns the wait events that happened and the
first failing task, when any. -/
def waitTasks (env : ContentEnv) : List Nat → List Event × Option Nat
  | [] => ([], none)
  | t :: ts =>
    if env.taskResult t = "success" then
      let rest := waitTasks env ts
      (.waitTask t :: rest.1, rest.2)
    else ([.waitTask t], some t)

inductive PipelineError
  /-- line 98 `assert task_status['result'] == 'success'` failed; carries
  the failing task id. -/
  | ContentSyncFailed (taskId : Nat)
  /-- line 107 `assert o_systems` failed; carries the major/minor that was
  searched for. -/
  | OperatingSystemNotFound (major minor : Nat)
  /-- line 110 `rh_repos[0]` raised `IndexError`: no vendor repo was synced. -/
  | NoVendorRepo
  /-- line 117 `assert task_status[0].result == 'success'` failed. -/
  | PublishFailed
  deriving Repr, DecidableEq

/-- The `Box(os=..., ak=..., ksrepo=..., cv=...)` returned at line 127. -/
structure ContentBundle where
  os : Nat
  ak : Nat
  ksrepo : Nat
  cv : Nat
  deriving Repr, DecidableEq

/-- `module_provisioning_rhel_content` end to end: sync phase, task waits,
operating-system resolution, kickstart-repo pick `rh_repos[0]`, publish,
activation-key creation.  Returns the event trace together with the
bundle or the error that aborted the fixture. -/
def buildContent (env : ContentEnv) (rhelVer : Nat) (ptype : String) :
    List Event × Except PipelineError ContentBundle :=
  let st := syncPhase env rhelVer ptype
  let waited := waitTasks env st.tasks
  let evs1 := st.events ++ waited.1
  match waited.2 with
  | some t => (evs1, .error (.ContentSyncFailed t))
  | none =>
    let entry := ksVersionSelector rhelVer
    let major := env.ksMajor entry
    let minor := env.ksMinor entry
    match (env.osSearch major minor).head? with
    | none => (evs1, .error (.OperatingSystemNotFound major minor))
    | some osId =>
      match st.rhRepos.head? with
      | none => (evs1, .error .NoVendorRepo)
      | some ks =>
        let evs2 := evs1 ++ [.publishCV]
        if env.publishResult = "success" then
          (evs2 ++ [.createAK],
            .ok { os := osId, ak := env.akId, ksrepo := ks, cv := env.cvRefetchId })
        else (evs2, .error .PublishFailed)

/-- The vendor-kickstart repositories enabled along a trace, in order. -/
def ksEnables (evs : List Event) : List String :=
  evs.filterMap fun e =>
    match e with
    | .enableKickstart n => some n
    | _ => none

/-- Events that can occur during the repository-enabling phase; the
publish, activation-key and wait events can not. -/
def phaseEvent : Event → Bool
  | .publishCV => false
  | .createAK => false
  | .waitTask _ => false
  | _ => true

/- ---------------------------------------------------------------------
   EphemeralHostManager: `provisioning_host` (lines 212-233) and
   `provision_multiple_hosts` (lines 235-257).
   Pytest resumes a yield fixture past its `yield` during teardown
   whether the test body passed or failed, and the `with Broker(...)`
   context manager checks the hosts back in when the block exits, even
   when an exception is propagating.  Those framework semantics are
   modelled directly: the lifecycle is the full ordered list of actions
   for one test run.
   --------------------------------------------------------------------- -/

inductive HostEvent
  /-- the broker checkout performed on entering `with Broker(...)`. -/
  | brokerCheckout (count : Nat)
  /-- the test body runs; `passed` records whether it raised. -/
  | testBody (passed : Bool)
  /-- `sat.execute('systemctl restart dhcpd')` with its exit status. -/
  | restartDhcpd (status : Nat)
  /-- `prov_host.blank = getattr(prov_host, 'blank', False)` on host `i`. -/
  | setBlankAttr (hostIdx : Nat)
  /-- the broker checkin performed on leaving `with Broker(...)`. -/
  | brokerCheckin
  deriving Repr, DecidableEq

/-- `provisioning_host`: checkout one blank VM, yield to the test, then
(on every exit of the test body) restart dhcpd on the Satellite, assert
the restart succeeded, set the blank attribute, and leave the `with`
block, which checks the host back in.  When the restart assertion fails
the attribute line is skipped but the checkin still happens. -/
def provisioningHostLifecycle (testPassed : Bool) (dhcpdStatus : Nat) :
    List HostEvent :=
  [.brokerCheckout 1, .testBody testPassed, .restartDhcpd dhcpdStatus]
    ++ (if dhcpdStatus = 0 then [.setBlankAttr 0] else [])
    ++ [.brokerCheckin]

/-- `provision_multiple_hosts`: checkout `count` blank VMs (default 2),
yield, then set each host's blank attribute and check them back in.
No shared service is restarted. -/
def provisionMultipleHostsLifecycle (count : Nat) (testPassed : Bool) :
    List HostEvent :=
  [.brokerCheckout count, .testBody testPassed]
    ++ (List.range count).map .setBlankAttr
    ++ [.brokerCheckin]

/-- Lines 232 and 256: the new value of a host's `blank` attribute at
teardown, from its previous state (`none` = attribute absent).
`getattr(host, 'blank', False)` reads the old value or defaults to
`False`, and the assignment always leaves the attribute present. -/
def teardownBlankAttr (blank : Option Bool) : Option Bool :=
  some (blank.getD false)

/- ---------------------------------------------------------------------
   DiscoveryImageManager: `pxeless_discovery_host` (lines 313-344).
   The artifact-name extraction at lines 325-326:
   `re.findall(r"foreman-discovery-image\S+", stdout)[0]`.
   Text is modelled as `List Char`.
   --------------------------------------------------------------------- -/

/-- The literal part of the remaster-output pattern. -/
def fdiLit : List Char := "foreman-discovery-image".toList

/-- `true` when the list starts with a non-whitespace character, i.e. the
regex `\S` would match here. -/
def headNonWs : List Char → Bool
  | [] => false
  | c :: _ => !c.isWhitespace

/-- The regex `foreman-discovery-image\S+` matches at position `i` of
`cs`: the literal is a prefix of the tail and at least one
non-whitespace character follows it. -/
def matchAtB (cs : List Char) (i : Nat) : Bool :=
  fdiLit.isPrefixOf (cs.drop i) && headNonWs ((cs.drop i).drop fdiLit.length)

/-- The (greedy) text the regex captures at position `i`. -/
def matchTextAt (cs : List Char) (i : Nat) : List Char :=
  fdiLit ++ ((cs.drop i).drop fdiLit.length).takeWhile (fun c => !c.isWhitespace)

/-- Left-to-right scan for the first match of
`foreman-discovery-image\S+`, i.e. `re.findall(...)[0]` when a match
exists and `none` otherwise. -/
def findFdi : List Char → Option (List Char)
  | [] => none
  | c :: rest =>
    if matchAtB (c :: rest) 0 then some (matchTextAt (c :: rest) 0)
    else findFdi rest

inductive DiscoveryError
  /-- `findall(...)[0]` raised `IndexError`: the remaster output holds no
  text of the form `foreman-discovery-image<non-whitespace>`. -/
  | RemasterOutputUnparseable
  deriving Repr, DecidableEq

/-- The artifact-filename extraction of `pxeless_discovery_host`. -/
def extractFdi (stdout : List Char) : Except DiscoveryError (List Char) :=
  match findFdi stdout with
  | some m => .ok m
  | none => .error .RemasterOutputUnparseable

/- ---------------------------------------------------------------------
   Concrete inputs used to evaluate the embedding.
   --------------------------------------------------------------------- -/

/-- The spec's scenario input: address `10.0.0.5/24`, one upstream DNS
address, a DHCP range inside the derived network. -/
def scenarioBrokerOut : BrokerDataOut :=
  { provisioning_addr_ipv4 := "10.0.0.5/24"
    provisioning_gw_ipv4 := "10.0.0.1"
    provisioning_host_range_start := "10.0.0.10"
    provisioning_host_range_end := "10.0.0.100"
    provisioning_upstream_dns := ["8.8.8.8"] }

/-- A parseable broker output with an upstream DNS address whose DHCP
range lies outside the network derived from the address descriptor. -/
def strayRangeBrokerOut : BrokerDataOut :=
  { scenarioBrokerOut with
    provisioning_host_range_start := "192.168.1.10"
    provisioning_host_range_end := "192.168.1.20" }

/-- A remote environment for the content pipeline in which every
operation succeeds. -/
def envGood : ContentEnv :=
  { ksRepoId := fun _ => 5
    contentRepoId := fun _ => 6
    clientTaskId := 10
    syncTaskId := fun r => 100 + r
    taskResult := fun _ => "success"
    ksMajor := fun _ => 9
    ksMinor := fun _ => 4
    osSearch := fun _ _ => [77]
    publishResult := "success"
    cvRefetchId := 50
    akId := 60 }

/-- Like `envGood` but every sync task polls to `failure`. -/
def envSyncFail : ContentEnv :=
  { envGood with taskResult := fun _ => "failure" }

/-- Like `envGood` but the operating-system search finds nothing. -/
def envNoOs : ContentEnv :=
  { envGood with osSearch := fun _ _ => [] }

/-- Distinguishes the kickstart entries consulted for RHEL 6: entry
`rhel6` carries version `6.0`, entry `rhel6_bos` carries version `60.0`,
and no operating system matches anything, so the resulting error names
the version string that was actually read. -/
def envRhel6 : ContentEnv :=
  { envGood with
    ksMajor := fun entry => if entry = "rhel6_bos" then 60 else 6
    ksMinor := fun _ => 0
    osSearch := fun _ _ => [] }

/- ---------------------------------------------------------------------
   Theorems.  First the NetworkProvisioner claims.
   --------------------------------------------------------------------- -/

theorem popDns_concat2 (l : List String) (a b : String) :
    popDns (l ++ [a, b]) = some (b, some a, l) := by
  have h2 : l ++ [a, b] = (l ++ [a]) ++ [b] := by simp
  rw [h2]
  simp [popDns, List.getLast?_concat, List.dropLast_concat]

theorem popDns_single (x : String) : popDns [x] = some (x, none, []) := by
  simp [popDns]

/-- Claim C10: upstream DNS addresses are consumed from the end of the
broker-supplied list: with two or more addresses the primary is the last
element and the secondary the second-to-last, both removed; with one
address it becomes the primary and the secondary is `None`. -/
theorem upstream_dns_popped_from_end (out : BrokerDataOut) (ap : Nat × Nat)
    (hparse : ipInterface out.provisioning_addr_ipv4 = some ap) :
    (∀ l a b, out.provisioning_upstream_dns = l ++ [a, b] →
      popDns out.provisioning_upstream_dns = some (b, some a, l) ∧
      ∃ s, moduleProvisioningSat out = .ok s ∧
        s.dns_primary = b ∧ s.dns_secondary = some a) ∧
    (∀ x, out.provisioning_upstream_dns = [x] →
      popDns out.provisioning_upstream_dns = some (x, none, []) ∧
      ∃ s, moduleProvisioningSat out = .ok s ∧
        s.dns_primary = x ∧ s.dns_secondary = none) := by
  constructor
  · intro l a b hl
    have hpop : popDns out.provisioning_upstream_dns = some (b, some a, l) := by
      rw [hl]; exact popDns_concat2 l a b
    refine ⟨hpop, ?_⟩
    unfold moduleProvisioningSat
    rw [hparse, hpop]
    exact ⟨_, rfl, rfl, rfl⟩
  · intro x hl
    have hpop : popDns out.provisioning_upstream_dns = some (x, none, []) := by
      rw [hl]; exact popDns_single x
    refine ⟨hpop, ?_⟩
    unfold moduleProvisioningSat
    rw [hparse, hpop]
    exact ⟨_, rfl, rfl, rfl⟩

/-- Claim C10 witness: the pop behaviour evaluated on the concrete
three-address list `["1.1.1.1", "8.8.8.8", "9.9.9.9"]` and on the
scenario's one-address list. -/
theorem upstream_dns_popped_from_end_witness :
    popDns (scenarioBrokerOut.provisioning_upstream_dns) = some ("8.8.8.8", none, []) ∧
    ∃ s, moduleProvisioningSat scenarioBrokerOut = .ok s ∧
      s.dns_primary = "8.8.8.8" ∧ s.dns_secondary = none :=
  (upstream_dns_popped_from_end scenarioBrokerOut (167772165, 24) (by decide)).2
    "8.8.8.8" rfl

/-- Claim C3 (amended): `module_provisioning_sat` copies the DHCP range
verbatim from the broker's `provisioning_host_range_start/end` fields —
no containment in the derived network is checked or established — and
`dns_secondary` is absent when exactly one upstream DNS address was
supplied. -/
theorem subnet_range_copied_verbatim (out : BrokerDataOut) (ap : Nat × Nat)
    (hparse : ipInterface out.provisioning_addr_ipv4 = some ap)
    (hdns : out.provisioning_upstream_dns ≠ []) :
    ∃ s, moduleProvisioningSat out = .ok s ∧
      s.from_ = out.provisioning_host_range_start ∧
      s.to_ = out.provisioning_host_range_end ∧
      (out.provisioning_upstream_dns.length = 1 → s.dns_secondary = none) := by
  obtain ⟨addr, p⟩ := ap
  obtain ⟨prim, hp⟩ := Option.isSome_iff_exists.mp
    (List.getLast?_isSome.mpr hdns)
  unfold moduleProvisioningSat popDns
  rw [hparse, hp]
  cases h2 : out.provisioning_upstream_dns.dropLast.getLast? with
  | none =>
    simp only [h2]
    exact ⟨_, rfl, rfl, rfl, fun _ => rfl⟩
  | some sec =>
    simp only [h2]
    refine ⟨_, rfl, rfl, rfl, fun hlen => ?_⟩
    obtain ⟨x, hx⟩ := List.length_eq_one.mp hlen
    rw [hx] at h2
    simp at h2

/-- Claim C3 counterexample: a parseable broker output with one upstream
DNS address whose copied DHCP range start does not lie in the network
derived from `10.0.0.5/24`, so the claimed containment fails. -/
theorem subnet_range_outside_network :
    ipInterface strayRangeBrokerOut.provisioning_addr_ipv4 = some (167772165, 24) ∧
    strayRangeBrokerOut.provisioning_upstream_dns ≠ [] ∧
    (moduleProvisioningSat strayRangeBrokerOut).toOption.map
      (fun s => ipInNetworkB s.from_ 167772165 24) = some false := by
  refine ⟨by decide, by decide, ?_⟩
  decide

/-- Claim C3 witness: the amended statement evaluated on the scenario
broker output. -/
theorem subnet_range_copied_verbatim_witness :
    ∃ s, moduleProvisioningSat scenarioBrokerOut = .ok s ∧
      s.from_ = scenarioBrokerOut.provisioning_host_range_start ∧
      s.to_ = scenarioBrokerOut.provisioning_host_range_end ∧
      (scenarioBrokerOut.provisioning_upstream_dns.length = 1 →
        s.dns_secondary = none) :=
  subnet_range_copied_verbatim scenarioBrokerOut (167772165, 24)
    (by decide) (by decide)

/-- Claim C5: the scenario broker output `10.0.0.5/24` with upstream DNS
list `["8.8.8.8"]` produces a Subnet with network `10.0.0.0`, mask
`255.255.255.0`, `dns_primary = "8.8.8.8"` and no `dns_secondary`. -/
theorem scenario_subnet_fields :
    moduleProvisioningSat scenarioBrokerOut =
      .ok { network := "10.0.0.0", mask := "255.255.255.0",
            gateway := "10.0.0.1", from_ := "10.0.0.10", to_ := "10.0.0.100",
            dns_primary := "8.8.8.8", dns_secondary := none } := by
  rfl

/- ---------------------------------------------------------------------
   EphemeralHostManager claims.
   --------------------------------------------------------------------- -/

/-- Claim C6: the single-host fixture restarts the shared dhcpd service
before the broker checkin on every exit of the test body (passing or
failing), while the multi-host fixture never restarts dhcpd for any host
count or test outcome. -/
theorem dhcpd_restart_asymmetry (testPassed : Bool) (dhcpdStatus count : Nat) :
    (∃ pre mid, provisioningHostLifecycle testPassed dhcpdStatus =
      pre ++ HostEvent.restartDhcpd dhcpdStatus :: (mid ++ [HostEvent.brokerCheckin])) ∧
    (∀ s, HostEvent.restartDhcpd s ∉ provisionMultipleHostsLifecycle count testPassed) := by
  constructor
  · refine ⟨[.brokerCheckout 1, .testBody testPassed],
      if dhcpdStatus = 0 then [.setBlankAttr 0] else [], ?_⟩
    by_cases h : dhcpdStatus = 0 <;> simp [provisioningHostLifecycle, h]
  · intro s
    simp [provisionMultipleHostsLifecycle, List.mem_append, List.mem_map]

/-- Claim C9: teardown writes `blank = getattr(host, 'blank', False)`:
a host whose `blank` attribute is already set keeps its value — in
particular a blank host stays blank — and only a host missing the
attribute gets `blank = False`. -/
theorem blank_attr_preserved (b : Bool) :
    teardownBlankAttr (some b) = some b ∧ teardownBlankAttr none = some false := by
  cases b <;> simp [teardownBlankAttr]

/- ---------------------------------------------------------------------
   DiscoveryImageManager claim.
   --------------------------------------------------------------------- -/

theorem matchAtB_nil (i : Nat) : matchAtB [] i = false := by
  unfold matchAtB
  rw [List.drop_nil]
  decide

theorem matchAtB_succ (c : Char) (cs : List Char) (i : Nat) :
    matchAtB (c :: cs) (i + 1) = matchAtB cs i := rfl

theorem matchTextAt_succ (c : Char) (cs : List Char) (i : Nat) :
    matchTextAt (c :: cs) (i + 1) = matchTextAt cs i := rfl

theorem findFdi_none_iff (cs : List Char) :
    findFdi cs = none ↔ ∀ i, matchAtB cs i = false := by
  induction cs with
  | nil => simp [findFdi, matchAtB_nil]
  | cons c rest ih =>
    by_cases h : matchAtB (c :: rest) 0 = true
    · simp only [findFdi, if_pos h]
      constructor
      · intro hc; cases hc
      · intro hall
        exact absurd (hall 0) (by simp [h])
    · have h0 : matchAtB (c :: rest) 0 = false := by
        cases hb : matchAtB (c :: rest) 0
        · rfl
        · exact absurd hb h
      simp only [findFdi, if_neg h]
      rw [ih]
      constructor
      · intro hall i
        cases i with
        | zero => exact h0
        | succ j => rw [matchAtB_succ]; exact hall j
      · intro hall j
        rw [← matchAtB_succ c]
        exact hall (j + 1)

theorem findFdi_first_match (cs : List Char) (m : List Char)
    (hm : findFdi cs = some m) :
    ∃ i, matchAtB cs i = true ∧ (∀ j, j < i → matchAtB cs j = false) ∧
      m = matchTextAt cs i := by
  induction cs with
  | nil => cases hm
  | cons c rest ih =>
    by_cases h : matchAtB (c :: rest) 0 = true
    · rw [findFdi, if_pos h] at hm
      exact ⟨0, h, fun j hj => absurd hj (Nat.not_lt_zero j),
        (Option.some.inj hm).symm⟩
    · have h0 : matchAtB (c :: rest) 0 = false := by
        cases hb : matchAtB (c :: rest) 0
        · rfl
        · exact absurd hb h
      rw [findFdi, if_neg h] at hm
      obtain ⟨i, h1, h2, h3⟩ := ih hm
      refine ⟨i + 1, ?_, ?_, ?_⟩
      · rw [matchAtB_succ]; exact h1
      · intro j hj
        cases j with
        | zero => exact h0
        | succ k => rw [matchAtB_succ]; exact h2 k (Nat.lt_of_succ_lt_succ hj)
      · rw [matchTextAt_succ]; exact h3

/-- Claim C8: the remaster-output extraction returns the first (leftmost)
substring matching `foreman-discovery-image` followed by at least one
non-whitespace character, greedily extended, and fails with
`RemasterOutputUnparseable` exactly when the output contains no position
where that pattern matches. -/
theorem remaster_extraction (stdout : List Char) :
    (extractFdi stdout = .error .RemasterOutputUnparseable ↔
      ∀ i, matchAtB stdout i = false) ∧
    (∀ m, extractFdi stdout = .ok m →
      ∃ i, matchAtB stdout i = true ∧ (∀ j, j < i → matchAtB stdout j = false) ∧
        m = matchTextAt stdout i) := by
  constructor
  · rw [← findFdi_none_iff]
    unfold extractFdi
    cases hf : findFdi stdout <;> simp [hf]
  · intro m hm
    apply findFdi_first_match stdout m
    unfold extractFdi at hm
    cases hf : findFdi stdout with
    | none => simp [hf] at hm
    | some v =>
      rw [hf] at hm
      exact congrArg some (Except.ok.inj hm)

/- ---------------------------------------------------------------------
   ContentPipeline lemmas: how one loop iteration transforms the state.
   --------------------------------------------------------------------- -/

theorem syncRepoIfPresent_pos (env : ContentEnv) (st : SyncState) (r : Nat)
    (h : r ≠ 0) :
    syncRepoIfPresent env st r =
      { st with
        tasks := st.tasks ++ [env.syncTaskId r]
        rhRepos := st.rhRepos ++ [r]
        events := st.events ++ [.syncRepo r (env.syncTaskId r)] } := by
  simp [syncRepoIfPresent, h]

theorem syncRepoIfPresent_zero (env : ContentEnv) (st : SyncState) :
    syncRepoIfPresent env st 0 = st := by
  simp [syncRepoIfPresent]

theorem processName_discovery (env : ContentEnv) (st : SyncState) (n : String)
    (h0 : st.rhRepoId = 0) :
    processName env "discovery" st n =
      { st with
        tasks := st.tasks ++
          (if env.ksRepoId n = 0 then [] else [env.syncTaskId (env.ksRepoId n)])
        rhRepos := st.rhRepos ++
          (if env.ksRepoId n = 0 then [] else [env.ksRepoId n])
        events := st.events ++ [.enableKickstart n] ++
          (if env.ksRepoId n = 0 then []
           else [.syncRepo (env.ksRepoId n) (env.syncTaskId (env.ksRepoId n))]) } := by
  unfold processName syncRepoIfPresent
  by_cases hks : env.ksRepoId n = 0 <;> simp [h0, hks]

theorem processName_content (env : ContentEnv) (ptype : String) (st : SyncState)
    (n : String) (hp : ptype ≠ "discovery") :
    processName env ptype st n =
      { rhRepoId := env.contentRepoId n
        tasks := st.tasks ++
          (if env.ksRepoId n = 0 then [] else [env.syncTaskId (env.ksRepoId n)]) ++
          (if env.contentRepoId n = 0 then []
           else [env.syncTaskId (env.contentRepoId n)])
        rhRepos := st.rhRepos ++
          (if env.ksRepoId n = 0 then [] else [env.ksRepoId n]) ++
          (if env.contentRepoId n = 0 then [] else [env.contentRepoId n])
        events := st.events ++ [.enableKickstart n, .enableContent n] ++
          (if env.ksRepoId n = 0 then []
           else [.syncRepo (env.ksRepoId n) (env.syncTaskId (env.ksRepoId n))]) ++
          (if env.contentRepoId n = 0 then []
           else [.syncRepo (env.contentRepoId n)
             (env.syncTaskId (env.contentRepoId n))]) } := by
  unfold processName syncRepoIfPresent
  by_cases hks : env.ksRepoId n = 0 <;> by_cases hc : env.contentRepoId n = 0 <;>
    simp [hp, hks, hc]

theorem syncRepoIfPresent_mono (env : ContentEnv) (st : SyncState) (r : Nat) :
    ∃ lt lr le, (syncRepoIfPresent env st r).tasks = st.tasks ++ lt ∧
      (syncRepoIfPresent env st r).rhRepos = st.rhRepos ++ lr ∧
      (syncRepoIfPresent env st r).events = st.events ++ le := by
  by_cases h : r = 0
  · subst h
    rw [syncRepoIfPresent_zero]
    exact ⟨[], [], [], by simp, by simp, by simp⟩
  · rw [syncRepoIfPresent_pos env st r h]
    exact ⟨_, _, _, rfl, rfl, rfl⟩

theorem processName_mono (env : ContentEnv) (ptype : String) (st : SyncState)
    (n : String) :
    ∃ lt lr le, (processName env ptype st n).tasks = st.tasks ++ lt ∧
      (processName env ptype st n).rhRepos = st.rhRepos ++ lr ∧
      (processName env ptype st n).events = st.events ++ le := by
  have key : ∀ stm : SyncState, stm.tasks = st.tasks → stm.rhRepos = st.rhRepos →
      (∃ le0, stm.events = st.events ++ le0) →
      ∃ lt lr le,
        (syncRepoIfPresent env (syncRepoIfPresent env stm (env.ksRepoId n))
          stm.rhRepoId).tasks = st.tasks ++ lt ∧
        (syncRepoIfPresent env (syncRepoIfPresent env stm (env.ksRepoId n))
          stm.rhRepoId).rhRepos = st.rhRepos ++ lr ∧
        (syncRepoIfPresent env (syncRepoIfPresent env stm (env.ksRepoId n))
          stm.rhRepoId).events = st.events ++ le := by
    rintro stm ht hr ⟨le0, he⟩
    obtain ⟨lt1, lr1, le1, g1, g2, g3⟩ := syncRepoIfPresent_mono env stm (env.ksRepoId n)
    obtain ⟨lt2, lr2, le2, h1, h2, h3⟩ := syncRepoIfPresent_mono env
      (syncRepoIfPresent env stm (env.ksRepoId n)) stm.rhRepoId
    refine ⟨lt1 ++ lt2, lr1 ++ lr2, le0 ++ le1 ++ le2, ?_, ?_, ?_⟩
    · rw [h1, g1, ht, List.append_assoc]
    · rw [h2, g2, hr, List.append_assoc]
    · rw [h3, g3, he]; simp
  simp only [processName]
  split
  · exact key _ rfl rfl
      ⟨[Event.enableKickstart n] ++ [Event.enableContent n], by simp⟩
  · exact key _ rfl rfl ⟨[Event.enableKickstart n], by simp⟩

theorem foldl_processName_mono (env : ContentEnv) (ptype : String) :
    ∀ (names : List String) (st : SyncState),
      ∃ lt lr le, (names.foldl (processName env ptype) st).tasks = st.tasks ++ lt ∧
        (names.foldl (processName env ptype) st).rhRepos = st.rhRepos ++ lr ∧
        (names.foldl (processName env ptype) st).events = st.events ++ le := by
  intro names
  induction names with
  | nil => exact fun st => ⟨[], [], [], by simp, by simp, by simp⟩
  | cons n rest ih =>
    intro st
    obtain ⟨lt1, lr1, le1, h1, h2, h3⟩ := processName_mono env ptype st n
    obtain ⟨lt2, lr2, le2, g1, g2, g3⟩ := ih (processName env ptype st n)
    rw [List.foldl_cons]
    exact ⟨lt1 ++ lt2, lr1 ++ lr2, le1 ++ le2,
      by rw [g1, h1, List.append_assoc],
      by rw [g2, h2, List.append_assoc],
      by rw [g3, h3, List.append_assoc]⟩


theorem syncRepoIfPresent_phase (env : ContentEnv) (st : SyncState) (r : Nat)
    (h : ∀ e ∈ st.events, phaseEvent e = true) :
    ∀ e ∈ (syncRepoIfPresent env st r).events, phaseEvent e = true := by
  by_cases hr : r = 0
  · subst hr; rw [syncRepoIfPresent_zero]; exact h
  · rw [syncRepoIfPresent_pos env st r hr]
    intro e he
    rcases List.mem_append.mp he with he | he
    · exact h e he
    · rcases List.mem_singleton.mp he with rfl; rfl

theorem processName_phase (env : ContentEnv) (ptype : String) (st : SyncState)
    (n : String) (h : ∀ e ∈ st.events, phaseEvent e = true) :
    ∀ e ∈ (processName env ptype st n).events, phaseEvent e = true := by
  simp only [processName]
  apply syncRepoIfPresent_phase
  apply syncRepoIfPresent_phase
  split
  · intro e he
    simp only [List.mem_append] at he
    rcases he with (he | he) | he
    · exact h e he
    · rcases List.mem_singleton.mp he with rfl; rfl
    · rcases List.mem_singleton.mp he with rfl; rfl
  · intro e he
    rcases List.mem_append.mp he with he | he
    · exact h e he
    · rcases List.mem_singleton.mp he with rfl; rfl

theorem foldl_processName_phase (env : ContentEnv) (ptype : String) :
    ∀ (names : List String) (st : SyncState),
      (∀ e ∈ st.events, phaseEvent e = true) →
      ∀ e ∈ (names.foldl (processName env ptype) st).events, phaseEvent e = true := by
  intro names
  induction names with
  | nil => exact fun st h => h
  | cons n rest ih =>
    intro st h
    exact ih (processName env ptype st n) (processName_phase env ptype st n h)

theorem syncPhase_phase (env : ContentEnv) (rhelVer : Nat) (ptype : String) :
    ∀ e ∈ (syncPhase env rhelVer ptype).events, phaseEvent e = true := by
  apply foldl_processName_phase
  intro e he
  rcases List.mem_cons.mp he with rfl | he
  · rfl
  rcases List.mem_cons.mp he with rfl | he
  · rfl
  rcases List.mem_singleton.mp he with rfl; rfl

theorem waitTasks_events_shape (env : ContentEnv) :
    ∀ ts, ∀ e ∈ (waitTasks env ts).1, ∃ t, e = Event.waitTask t := by
  intro ts
  induction ts with
  | nil => intro e he; simp [waitTasks] at he
  | cons t rest ih =>
    intro e he
    by_cases h : env.taskResult t = "success"
    · simp only [waitTasks, if_pos h] at he
      rcases List.mem_cons.mp he with rfl | he
      · exact ⟨t, rfl⟩
      · exact ih e he
    · simp only [waitTasks, if_neg h] at he
      rcases List.mem_singleton.mp he with rfl
      exact ⟨t, rfl⟩

theorem waitTasks_snd_some (env : ContentEnv) :
    ∀ ts, (∃ t ∈ ts, ¬ env.taskResult t = "success") →
      ∃ t, (waitTasks env ts).2 = some t := by
  intro ts
  induction ts with
  | nil => intro h; simp at h
  | cons t rest ih =>
    intro h
    by_cases hs : env.taskResult t = "success"
    · simp only [waitTasks, if_pos hs]
      apply ih
      rcases h with ⟨u, hu, hres⟩
      rcases List.mem_cons.mp hu with rfl | hu2
      · exact absurd hs hres
      · exact ⟨u, hu2, hres⟩
    · exact ⟨t, by simp [waitTasks, if_neg hs]⟩

theorem waitTasks_snd_none (env : ContentEnv) :
    ∀ ts, (∀ t ∈ ts, env.taskResult t = "success") →
      (waitTasks env ts).2 = none := by
  intro ts
  induction ts with
  | nil => intro _; rfl
  | cons t rest ih =>
    intro h
    have hs : env.taskResult t = "success" := h t (List.mem_cons_self t rest)
    simp only [waitTasks, if_pos hs]
    exact ih fun u hu => h u (List.mem_cons_of_mem t hu)

theorem buildContent_trace (env : ContentEnv) (rhelVer : Nat) (ptype : String) :
    ∃ l, (buildContent env rhelVer ptype).1 = (syncPhase env rhelVer ptype).events ++ l ∧
      ∀ e ∈ l, phaseEvent e = false := by
  have hwl : ∀ e ∈ (waitTasks env (syncPhase env rhelVer ptype).tasks).1,
      phaseEvent e = false := by
    intro e he
    obtain ⟨t, rfl⟩ := waitTasks_events_shape env _ e he
    rfl
  simp only [buildContent]
  cases hw : (waitTasks env (syncPhase env rhelVer ptype).tasks).2 with
  | some t =>
    exact ⟨_, rfl, hwl⟩
  | none =>
    cases hos : (env.osSearch (env.ksMajor (ksVersionSelector rhelVer))
        (env.ksMinor (ksVersionSelector rhelVer))).head? with
    | none => exact ⟨_, rfl, hwl⟩
    | some o =>
      cases hks : (syncPhase env rhelVer ptype).rhRepos.head? with
      | none => exact ⟨_, rfl, hwl⟩
      | some k =>
        by_cases hpub : env.publishResult = "success"
        · rw [hpub]
          refine ⟨(waitTasks env (syncPhase env rhelVer ptype).tasks).1 ++
            [Event.publishCV] ++ [Event.createAK], by simp, ?_⟩
          intro e he
          simp only [List.mem_append] at he
          rcases he with (he | he) | he
          · exact hwl e he
          · rcases List.mem_singleton.mp he with rfl; rfl
          · rcases List.mem_singleton.mp he with rfl; rfl
        · simp only [if_neg hpub]
          refine ⟨(waitTasks env (syncPhase env rhelVer ptype).tasks).1 ++
            [Event.publishCV], by simp, ?_⟩
          intro e he
          simp only [List.mem_append] at he
          rcases he with he | he
          · exact hwl e he
          · rcases List.mem_singleton.mp he with rfl; rfl

/-- Claim C1: when some queued sync task polls to a result other than
`success`, `module_provisioning_rhel_content` aborts: the content-view
publish is never issued, no activation key is created, and the fixture
fails with `ContentSyncFailed`. -/
theorem sync_failure_blocks_publish (env : ContentEnv) (rhelVer : Nat)
    (ptype : String)
    (h : ∃ t ∈ (syncPhase env rhelVer ptype).tasks,
      ¬ env.taskResult t = "success") :
    Event.publishCV ∉ (buildContent env rhelVer ptype).1 ∧
    Event.createAK ∉ (buildContent env rhelVer ptype).1 ∧
    ∃ t, (buildContent env rhelVer ptype).2 =
      .error (.ContentSyncFailed t) := by
  obtain ⟨t0, ht0⟩ := waitTasks_snd_some env _ h
  have hbc : buildContent env rhelVer ptype =
      ((syncPhase env rhelVer ptype).events ++
        (waitTasks env (syncPhase env rhelVer ptype).tasks).1,
        .error (.ContentSyncFailed t0)) := by
    simp only [buildContent]
    rw [ht0]
  rw [hbc]
  refine ⟨?_, ?_, t0, rfl⟩
  · intro hin
    rcases List.mem_append.mp hin with hin | hin
    · have hph := syncPhase_phase env rhelVer ptype _ hin
      simp [phaseEvent] at hph
    · obtain ⟨t, ht⟩ := waitTasks_events_shape env _ _ hin
      cases ht
  · intro hin
    rcases List.mem_append.mp hin with hin | hin
    · have hph := syncPhase_phase env rhelVer ptype _ hin
      simp [phaseEvent] at hph
    · obtain ⟨t, ht⟩ := waitTasks_events_shape env _ _ hin
      cases ht

/-- Claim C1 witness: with every remote task polling to `failure`, the
RHEL 9 pipeline run issues no publish, creates no activation key and
aborts with `ContentSyncFailed`. -/
theorem sync_failure_blocks_publish_witness :
    (∃ t ∈ (syncPhase envSyncFail 9 "pxe").tasks,
      ¬ envSyncFail.taskResult t = "success") ∧
    (Event.publishCV ∉ (buildContent envSyncFail 9 "pxe").1 ∧
     Event.createAK ∉ (buildContent envSyncFail 9 "pxe").1 ∧
     ∃ t, (buildContent envSyncFail 9 "pxe").2 =
       .error (.ContentSyncFailed t)) :=
  ⟨by decide, sync_failure_blocks_publish envSyncFail 9 "pxe" (by decide)⟩

theorem ksEnables_append (a b : List Event) :
    ksEnables (a ++ b) = ksEnables a ++ ksEnables b := by
  simp [ksEnables, List.filterMap_append]

theorem syncRepoIfPresent_ksEnables (env : ContentEnv) (st : SyncState) (r : Nat) :
    ksEnables (syncRepoIfPresent env st r).events = ksEnables st.events := by
  by_cases h : r = 0
  · subst h; rw [syncRepoIfPresent_zero]
  · rw [syncRepoIfPresent_pos env st r h]
    show ksEnables (st.events ++ [Event.syncRepo r (env.syncTaskId r)]) = _
    rw [ksEnables_append]
    simp [ksEnables]

theorem processName_ksEnables (env : ContentEnv) (ptype : String) (st : SyncState)
    (n : String) :
    ksEnables (processName env ptype st n).events = ksEnables st.events ++ [n] := by
  simp only [processName]
  rw [syncRepoIfPresent_ksEnables, syncRepoIfPresent_ksEnables]
  split
  · show ksEnables (st.events ++ [Event.enableKickstart n] ++ [Event.enableContent n]) = _
    rw [ksEnables_append, ksEnables_append]
    simp [ksEnables]
  · show ksEnables (st.events ++ [Event.enableKickstart n]) = _
    rw [ksEnables_append]
    simp [ksEnables]

theorem foldl_ksEnables (env : ContentEnv) (ptype : String) :
    ∀ (names : List String) (st : SyncState),
      ksEnables ((names.foldl (processName env ptype) st).events) =
        ksEnables st.events ++ names := by
  intro names
  induction names with
  | nil => intro st; simp
  | cons n rest ih =>
    intro st
    rw [List.foldl_cons, ih, processName_ksEnables]
    simp

theorem syncPhase_ksEnables (env : ContentEnv) (rhelVer : Nat) (ptype : String) :
    ksEnables (syncPhase env rhelVer ptype).events = repoNames rhelVer := by
  unfold syncPhase
  rw [foldl_ksEnables]
  show ksEnables [Event.createCV, Event.createClientRepo,
    Event.syncClient env.clientTaskId] ++ repoNames rhelVer = repoNames rhelVer
  simp [ksEnables]

theorem waitTasks_ksEnables (env : ContentEnv) :
    ∀ ts, ksEnables (waitTasks env ts).1 = [] := by
  intro ts
  induction ts with
  | nil => rfl
  | cons t rest ih =>
    by_cases h : env.taskResult t = "success"
    · simp only [waitTasks, if_pos h]
      show ksEnables (Event.waitTask t :: (waitTasks env rest).1) = []
      simp [ksEnables, List.filterMap_cons] at ih ⊢
      exact ih
    · simp only [waitTasks, if_neg h]
      rfl

theorem processName_rhRepos_head (env : ContentEnv) (ptype : String)
    (st : SyncState) (n : String) (hks : env.ksRepoId n ≠ 0) :
    ∃ l, (processName env ptype st n).rhRepos =
      st.rhRepos ++ (env.ksRepoId n :: l) := by
  have key : ∀ stm : SyncState, stm.rhRepos = st.rhRepos →
      ∃ l, (syncRepoIfPresent env (syncRepoIfPresent env stm (env.ksRepoId n))
        stm.rhRepoId).rhRepos = st.rhRepos ++ (env.ksRepoId n :: l) := by
    intro stm hr
    obtain ⟨lt2, lr2, le2, _, h2, _⟩ := syncRepoIfPresent_mono env
      (syncRepoIfPresent env stm (env.ksRepoId n)) stm.rhRepoId
    rw [h2, syncRepoIfPresent_pos env stm (env.ksRepoId n) hks]
    exact ⟨lr2, by show (stm.rhRepos ++ [env.ksRepoId n]) ++ lr2 = _; rw [hr]; simp⟩
  simp only [processName]
  split
  · exact key _ rfl
  · exact key _ rfl

theorem syncPhase_rhRepos_head (env : ContentEnv) (rhelVer : Nat) (ptype : String)
    (hks : ∀ n, env.ksRepoId n ≠ 0) :
    ∃ l, (syncPhase env rhelVer ptype).rhRepos =
      env.ksRepoId ((repoNames rhelVer).headI) :: l := by
  have key : ∀ (n : String) (rest : List String),
      ∃ l, (((n :: rest).foldl (processName env ptype) (initSyncState env))).rhRepos =
        env.ksRepoId n :: l := by
    intro n rest
    rw [List.foldl_cons]
    obtain ⟨l1, h1⟩ := processName_rhRepos_head env ptype (initSyncState env) n (hks n)
    obtain ⟨lt2, lr2, le2, _, h2, _⟩ := foldl_processName_mono env ptype rest
      (processName env ptype (initSyncState env) n)
    refine ⟨l1 ++ lr2, ?_⟩
    rw [h2, h1]
    show ((initSyncState env).rhRepos ++ (env.ksRepoId n :: l1)) ++ lr2 =
      env.ksRepoId n :: (l1 ++ lr2)
    simp [initSyncState]
  unfold syncPhase
  by_cases h7 : rhelVer ≤ 7
  · rw [show repoNames rhelVer = ["rhel" ++ toString rhelVer] from by
      simp [repoNames, h7]]
    exact key _ []
  · rw [show repoNames rhelVer = ["rhel" ++ toString rhelVer ++ "_bos",
      "rhel" ++ toString rhelVer ++ "_aps"] from by simp [repoNames, h7]]
    exact key _ _

theorem buildContent_success (env : ContentEnv) (rhelVer : Nat) (ptype : String)
    (hsync : ∀ t ∈ (syncPhase env rhelVer ptype).tasks,
      env.taskResult t = "success")
    (o : Nat) (os2 : List Nat)
    (hos : env.osSearch (env.ksMajor (ksVersionSelector rhelVer))
      (env.ksMinor (ksVersionSelector rhelVer)) = o :: os2)
    (k : Nat) (ks2 : List Nat)
    (hk : (syncPhase env rhelVer ptype).rhRepos = k :: ks2)
    (hpub : env.publishResult = "success") :
    buildContent env rhelVer ptype =
      ((syncPhase env rhelVer ptype).events ++
        (waitTasks env (syncPhase env rhelVer ptype).tasks).1 ++
        [Event.publishCV] ++ [Event.createAK],
       .ok { os := o, ak := env.akId, ksrepo := k, cv := env.cvRefetchId }) := by
  have hw := waitTasks_snd_none env _ hsync
  simp only [buildContent]
  rw [hw, hos, hk, hpub]
  rfl

theorem buildContent_success_fst (env : ContentEnv) (rhelVer : Nat) (ptype : String)
    (hsync : ∀ t ∈ (syncPhase env rhelVer ptype).tasks,
      env.taskResult t = "success")
    (o : Nat) (os2 : List Nat)
    (hos : env.osSearch (env.ksMajor (ksVersionSelector rhelVer))
      (env.ksMinor (ksVersionSelector rhelVer)) = o :: os2)
    (k : Nat) (ks2 : List Nat)
    (hk : (syncPhase env rhelVer ptype).rhRepos = k :: ks2)
    (hpub : env.publishResult = "success") :
    (buildContent env rhelVer ptype).1 =
      (syncPhase env rhelVer ptype).events ++
        (waitTasks env (syncPhase env rhelVer ptype).tasks).1 ++
        [Event.publishCV] ++ [Event.createAK] := by
  rw [buildContent_success env rhelVer ptype hsync o os2 hos k ks2 hk hpub]

/-- Claim C2: for every RHEL version the pipeline enables exactly the
vendor kickstart repositories named by `repoNames` — one combined repo
for versions at most 7, BaseOS then AppStream above 7 — and the
kickstart repository placed in the returned bundle is the one obtained
for the first of those names. -/
theorem vendor_repo_selection (env : ContentEnv) (rhelVer : Nat) (ptype : String)
    (hks : ∀ n, env.ksRepoId n ≠ 0)
    (hsync : ∀ t ∈ (syncPhase env rhelVer ptype).tasks,
      env.taskResult t = "success")
    (hos : env.osSearch (env.ksMajor (ksVersionSelector rhelVer))
      (env.ksMinor (ksVersionSelector rhelVer)) ≠ [])
    (hpub : env.publishResult = "success") :
    ksEnables (buildContent env rhelVer ptype).1 = repoNames rhelVer ∧
    (rhelVer ≤ 7 → repoNames rhelVer = ["rhel" ++ toString rhelVer]) ∧
    (7 < rhelVer → repoNames rhelVer =
      ["rhel" ++ toString rhelVer ++ "_bos",
       "rhel" ++ toString rhelVer ++ "_aps"]) ∧
    ∃ b, (buildContent env rhelVer ptype).2 = .ok b ∧
      b.ksrepo = env.ksRepoId ((repoNames rhelVer).headI) := by
  obtain ⟨o, os2, hos2⟩ := List.exists_cons_of_ne_nil hos
  obtain ⟨l, hk⟩ := syncPhase_rhRepos_head env rhelVer ptype hks
  refine ⟨?_, ?_, ?_, ?_⟩
  · rw [buildContent_success_fst env rhelVer ptype hsync o os2 hos2 _ l hk hpub]
    rw [ksEnables_append, ksEnables_append, ksEnables_append,
      syncPhase_ksEnables, waitTasks_ksEnables]
    simp [ksEnables]
  · intro h; simp [repoNames, h]
  · intro h; simp [repoNames, Nat.not_le.mpr h]
  · refine ⟨⟨o, env.akId, env.ksRepoId ((repoNames rhelVer).headI),
      env.cvRefetchId⟩, ?_, rfl⟩
    rw [buildContent_success env rhelVer ptype hsync o os2 hos2 _ l hk hpub]

/-- Claim C2 witness: the property evaluated at a fully successful
environment for RHEL 9. -/
theorem vendor_repo_selection_witness :
    ksEnables (buildContent envGood 9 "pxe").1 = repoNames 9 ∧
    ((9 : Nat) ≤ 7 → repoNames 9 = ["rhel" ++ toString (9 : Nat)]) ∧
    ((7 : Nat) < 9 → repoNames 9 =
      ["rhel" ++ toString (9 : Nat) ++ "_bos",
       "rhel" ++ toString (9 : Nat) ++ "_aps"]) ∧
    ∃ b, (buildContent envGood 9 "pxe").2 = .ok b ∧
      b.ksrepo = envGood.ksRepoId ((repoNames 9).headI) :=
  vendor_repo_selection envGood 9 "pxe" (fun _ => by simp [envGood])
    (fun _ _ => rfl) (by decide) rfl

/-- Claim C4 (amended): the kickstart version string is read from the
combined entry `rhel{v}` only when the requested version is exactly 7;
every other version — including versions below 7 — reads the BaseOS
entry `rhel{v}_bos`.  When no operating system matches the major/minor
parsed from that entry, bundle construction fails with
`OperatingSystemNotFound` naming the missing version. -/
theorem ks_version_entry_and_os_missing (env : ContentEnv) (rhelVer : Nat)
    (ptype : String)
    (hsync : ∀ t ∈ (syncPhase env rhelVer ptype).tasks,
      env.taskResult t = "success")
    (hos : env.osSearch (env.ksMajor (ksVersionSelector rhelVer))
      (env.ksMinor (ksVersionSelector rhelVer)) = []) :
    (buildContent env rhelVer ptype).2 =
      .error (.OperatingSystemNotFound
        (env.ksMajor (ksVersionSelector rhelVer))
        (env.ksMinor (ksVersionSelector rhelVer))) ∧
    (rhelVer = 7 → ksVersionSelector rhelVer = "rhel" ++ toString rhelVer) ∧
    (rhelVer ≠ 7 → ksVersionSelector rhelVer =
      "rhel" ++ toString rhelVer ++ "_bos") := by
  refine ⟨?_, ?_, ?_⟩
  · have hw := waitTasks_snd_none env _ hsync
    simp only [buildContent]
    rw [hw, hos]
    rfl
  · intro h; simp [ksVersionSelector, h]
  · intro h; simp [ksVersionSelector, h]

/-- Claim C4 counterexample: for the requested version 6 (which is at
most 7) the pipeline reads the kickstart version from the `rhel6_bos`
entry, not from the combined `rhel6` entry: in an environment where
`rhel6` carries major 6 and `rhel6_bos` carries major 60, the failure
names major 60. -/
theorem rhel6_version_from_bos_entry :
    (buildContent envRhel6 6 "pxe").2 =
      .error (.OperatingSystemNotFound 60 0) ∧
    envRhel6.ksMajor "rhel6" = 6 ∧ (6 : Nat) ≤ 7 := by
  refine ⟨?_, rfl, by decide⟩
  rfl

/-- Claim C4 witness: the amended statement evaluated at an environment
whose operating-system search always comes back empty, for RHEL 9. -/
theorem ks_version_entry_witness :
    (buildContent envNoOs 9 "pxe").2 =
      .error (.OperatingSystemNotFound
        (envNoOs.ksMajor (ksVersionSelector 9))
        (envNoOs.ksMinor (ksVersionSelector 9))) ∧
    ((9 : Nat) = 7 → ksVersionSelector 9 = "rhel" ++ toString (9 : Nat)) ∧
    ((9 : Nat) ≠ 7 → ksVersionSelector 9 =
      "rhel" ++ toString (9 : Nat) ++ "_bos") :=
  ks_version_entry_and_os_missing envNoOs 9 "pxe" (fun _ _ => rfl) rfl

theorem discovery_foldl_invariant (env : ContentEnv) :
    ∀ (names : List String) (st : SyncState), st.rhRepoId = 0 →
      (names.foldl (processName env "discovery") st).rhRepoId = 0 ∧
      ∀ e ∈ (names.foldl (processName env "discovery") st).events,
        e ∈ st.events ∨ (∃ n ∈ names, e = .enableKickstart n) ∨
        (∃ n ∈ names, e = .syncRepo (env.ksRepoId n)
          (env.syncTaskId (env.ksRepoId n))) := by
  intro names
  induction names with
  | nil => intro st h0; exact ⟨h0, fun e he => Or.inl he⟩
  | cons n rest ih =>
    intro st h0
    rw [List.foldl_cons]
    have hpd := processName_discovery env st n h0
    have h0x : (processName env "discovery" st n).rhRepoId = 0 := by
      rw [hpd]; exact h0
    obtain ⟨hr, hforall⟩ := ih (processName env "discovery" st n) h0x
    refine ⟨hr, fun e he => ?_⟩
    rcases hforall e he with hin | ⟨x, hx, he2⟩ | ⟨x, hx, he2⟩
    · rw [hpd] at hin
      by_cases hks : env.ksRepoId n = 0
      · simp [hks, List.mem_append, List.mem_singleton] at hin
        rcases hin with hin | rfl
        · exact Or.inl hin
        · exact Or.inr (Or.inl ⟨n, List.mem_cons_self n rest, rfl⟩)
      · simp [hks, List.mem_append, List.mem_singleton] at hin
        rcases hin with hin | rfl | rfl
        · exact Or.inl hin
        · exact Or.inr (Or.inl ⟨n, List.mem_cons_self n rest, rfl⟩)
        · exact Or.inr (Or.inr ⟨n, List.mem_cons_self n rest, rfl⟩)
    · exact Or.inr (Or.inl ⟨x, List.mem_cons_of_mem n hx, he2⟩)
    · exact Or.inr (Or.inr ⟨x, List.mem_cons_of_mem n hx, he2⟩)

theorem nondiscovery_foldl_mem (env : ContentEnv) (ptype : String)
    (hp : ptype ≠ "discovery") :
    ∀ (names : List String) (st : SyncState) (n : String), n ∈ names →
      env.contentRepoId n ≠ 0 →
      Event.enableContent n ∈ (names.foldl (processName env ptype) st).events ∧
      Event.syncRepo (env.contentRepoId n)
        (env.syncTaskId (env.contentRepoId n)) ∈
        (names.foldl (processName env ptype) st).events := by
  intro names
  induction names with
  | nil => intro st n hmem; cases hmem
  | cons m rest ih =>
    intro st n hmem hc
    rw [List.foldl_cons]
    rcases List.mem_cons.mp hmem with rfl | hmem2
    · obtain ⟨lt2, lr2, le2, _, _, hev⟩ := foldl_processName_mono env ptype rest
        (processName env ptype st n)
      rw [hev, processName_content env ptype st n hp]
      constructor
      · apply List.mem_append_left
        simp [hc]
      · apply List.mem_append_left
        simp [hc]
    · exact ih (processName env ptype st m) n hmem2 hc

/-- Claim C7: when the provisioning type is `discovery`, the pipeline
enables no vendor content repository and the only repository syncs it
triggers besides the client repo are for the vendor kickstart-tree
repositories; for any other provisioning type the content repository of
every vendor repo name is enabled and synced as well. -/
theorem discovery_sync_scope (env : ContentEnv) (rhelVer : Nat) (ptype : String)
    (hc : ∀ n, env.contentRepoId n ≠ 0) :
    (ptype = "discovery" →
      (∀ n, Event.enableContent n ∉ (buildContent env rhelVer ptype).1) ∧
      (∀ r t, Event.syncRepo r t ∈ (buildContent env rhelVer ptype).1 →
        ∃ n ∈ repoNames rhelVer, r = env.ksRepoId n ∧
          t = env.syncTaskId (env.ksRepoId n))) ∧
    (ptype ≠ "discovery" →
      ∀ n ∈ repoNames rhelVer,
        Event.enableContent n ∈ (buildContent env rhelVer ptype).1 ∧
        Event.syncRepo (env.contentRepoId n)
          (env.syncTaskId (env.contentRepoId n)) ∈
          (buildContent env rhelVer ptype).1) := by
  obtain ⟨ltail, htr, htail⟩ := buildContent_trace env rhelVer ptype
  constructor
  · intro hd
    subst hd
    have hinv := discovery_foldl_invariant env (repoNames rhelVer)
      (initSyncState env) rfl
    constructor
    · intro n hin
      rw [htr] at hin
      rcases List.mem_append.mp hin with hin | hin
      · rcases hinv.2 _ hin with hin2 | ⟨x, _, he2⟩ | ⟨x, _, he2⟩
        · simp [initSyncState] at hin2
        · cases he2
        · cases he2
      · have hph := htail _ hin
        simp [phaseEvent] at hph
    · intro r t hin
      rw [htr] at hin
      rcases List.mem_append.mp hin with hin | hin
      · rcases hinv.2 _ hin with hin2 | ⟨x, _, he2⟩ | ⟨x, hx, he2⟩
        · simp [initSyncState] at hin2
        · cases he2
        · injection he2 with h1 h2
          exact ⟨x, hx, h1, h2⟩
      · have hph := htail _ hin
        simp [phaseEvent] at hph
  · intro hp n hn
    have hm := nondiscovery_foldl_mem env ptype hp (repoNames rhelVer)
      (initSyncState env) n hn (hc n)
    rw [htr]
    exact ⟨List.mem_append_left _ hm.1, List.mem_append_left _ hm.2⟩

/-- Claim C7 witness: the property evaluated at a successful environment
with all repository ids nonzero, RHEL 9, discovery provisioning type. -/
theorem discovery_sync_scope_witness :
    (("discovery" : String) = "discovery" →
      (∀ n, Event.enableContent n ∉ (buildContent envGood 9 "discovery").1) ∧
      (∀ r t, Event.syncRepo r t ∈ (buildContent envGood 9 "discovery").1 →
        ∃ n ∈ repoNames 9, r = envGood.ksRepoId n ∧
          t = envGood.syncTaskId (envGood.ksRepoId n))) ∧
    (("discovery" : String) ≠ "discovery" →
      ∀ n ∈ repoNames 9,
        Event.enableContent n ∈ (buildContent envGood 9 "discovery").1 ∧
        Event.syncRepo (envGood.contentRepoId n)
          (envGood.syncTaskId (envGood.contentRepoId n)) ∈
          (buildContent envGood 9 "discovery").1) :=
  discovery_sync_scope envGood 9 "discovery" (fun _ => by simp [envGood])
